import Mathlib

/-!
Verification development for the quake2-vs2015 renderer core: a shallow
embedding in Lean 4 of the light baker (dx_lightbaker.cpp), the frame-graph
builder's root-argument and preprocessor routines (dx_framegraphbuilder.cpp),
and the buffer sub-allocator (dx_buffer.h).

Machine floats are modelled as rationals; fallible or undefined-behaviour
paths (dereference of an empty `std::optional`, `std::string::substr` throwing)
are modelled with `Option`.
-/

set_option maxHeartbeats 1000000

namespace Q2VS

/-- Embedding of `XMFLOAT4`, the 4-component float vector used throughout the
light baker. Components are modelled as rationals. -/
structure Float4 where
  x : ℚ
  y : ℚ
  z : ℚ
  w : ℚ
deriving DecidableEq

instance : Inhabited Float4 := ⟨⟨0, 0, 0, 0⟩⟩

/-- Channelwise sum, as in `XMVECTOR` addition. -/
def Float4.add (a b : Float4) : Float4 := ⟨a.x + b.x, a.y + b.y, a.z + b.z, a.w + b.w⟩

/-- Channelwise product, as in `XMVECTOR` componentwise multiplication. -/
def Float4.mul (a b : Float4) : Float4 := ⟨a.x * b.x, a.y * b.y, a.z * b.z, a.w * b.w⟩

/-- Scalar times vector, as in `XMVECTOR * float`. -/
def Float4.smul (s : ℚ) (a : Float4) : Float4 := ⟨s * a.x, s * a.y, s * a.z, s * a.w⟩

/-! ### `CalculateDistanceFalloff` (dx_lightbaker.cpp, anonymous namespace) -/

/-- `CalculateDistanceFalloff(dist, dist0, distMax)`: returns `0` when
`dist >= distMax`, `1` when `dist <= dist0`, and otherwise the windowed
inverse-square model
`powf(max(0, 1 - powf(dist/distMax, 4)), 2) * powf(dist0/dist, 2)`. -/
def CalculateDistanceFalloff (dist dist0 distMax : ℚ) : ℚ :=
  if distMax ≤ dist then 0
  else if dist ≤ dist0 then 1
  else (max 0 (1 - (dist / distMax) ^ 4)) ^ 2 * (dist0 / dist) ^ 2

/-- In the open interval `dist0 < d < distMax` the falloff takes the
windowed-inverse-square form (both `if` guards are false). -/
lemma calculateDistanceFalloff_of_between {dist dist0 distMax : ℚ}
    (h1 : dist0 < dist) (h2 : dist < distMax) :
    CalculateDistanceFalloff dist dist0 distMax =
      (max 0 (1 - (dist / distMax) ^ 4)) ^ 2 * (dist0 / dist) ^ 2 := by
  unfold CalculateDistanceFalloff
  rw [if_neg (by linarith), if_neg (by linarith)]

/-- On `(dist0, distMax)` with `0 < dist0` the window term is positive, so the
`max` is the identity there. -/
lemma window_pos {dist distMax : ℚ} (hd : 0 < dist) (h2 : dist < distMax) :
    0 < 1 - (dist / distMax) ^ 4 := by
  have hM : 0 < distMax := lt_trans hd h2
  have hlt : dist / distMax < 1 := (div_lt_one hM).mpr h2
  have hnn : 0 ≤ dist / distMax := div_nonneg hd.le hM.le
  have : (dist / distMax) ^ 4 < 1 := pow_lt_one₀ hnn hlt (by norm_num)
  linarith

/-- `CalculateDistanceFalloff` is nonnegative, unconditionally. -/
lemma calculateDistanceFalloff_nonneg (dist dist0 distMax : ℚ) :
    0 ≤ CalculateDistanceFalloff dist dist0 distMax := by
  unfold CalculateDistanceFalloff
  split
  · exact le_refl 0
  split
  · exact zero_le_one
  · positivity

/-- `CalculateDistanceFalloff` never exceeds `1` when the inner radius is
nonnegative. -/
lemma calculateDistanceFalloff_le_one (dist dist0 distMax : ℚ) (h0 : 0 ≤ dist0) :
    CalculateDistanceFalloff dist dist0 distMax ≤ 1 := by
  unfold CalculateDistanceFalloff
  split
  · exact zero_le_one
  split
  · exact le_refl 1
  · rename_i hmax hlow
    push_neg at hmax hlow
    have hd : 0 < dist := lt_of_le_of_lt h0 hlow
    have hwin : max 0 (1 - (dist / distMax) ^ 4) ≤ 1 := by
      have : (0:ℚ) ≤ (dist / distMax) ^ 4 := by positivity
      have : 1 - (dist / distMax) ^ 4 ≤ 1 := by linarith
      exact max_le zero_le_one this
    have hwin0 : 0 ≤ max 0 (1 - (dist / distMax) ^ 4) := le_max_left 0 _
    have hfrac : dist0 / dist ≤ 1 := (div_le_one hd).mpr hlow.le
    have hfrac0 : 0 ≤ dist0 / dist := div_nonneg h0 hd.le
    calc (max 0 (1 - (dist / distMax) ^ 4)) ^ 2 * (dist0 / dist) ^ 2
        ≤ 1 ^ 2 * 1 ^ 2 := by
          apply mul_le_mul (pow_le_pow_left₀ hwin0 hwin 2) (pow_le_pow_left₀ hfrac0 hfrac 2)
            (by positivity) (by norm_num)
      _ = 1 := by norm_num

/-- On `dist0 < a < b < distMax` with `0 < dist0` the falloff strictly
decreases. -/
lemma calculateDistanceFalloff_strictAnti {d0 dMax a b : ℚ}
    (h0 : 0 < d0) (ha : d0 < a) (hab : a < b) (hb : b < dMax) :
    CalculateDistanceFalloff b d0 dMax < CalculateDistanceFalloff a d0 dMax := by
  have ha0 : 0 < a := lt_trans h0 ha
  have hb0 : 0 < b := lt_trans ha0 hab
  have hM : 0 < dMax := lt_trans hb0 hb
  have haM : a < dMax := lt_trans hab hb
  rw [calculateDistanceFalloff_of_between ha haM,
    calculateDistanceFalloff_of_between (lt_trans ha hab) hb]
  have hwa : 0 < 1 - (a / dMax) ^ 4 := window_pos ha0 haM
  have hwb : 0 < 1 - (b / dMax) ^ 4 := window_pos hb0 hb
  rw [max_eq_right hwa.le, max_eq_right hwb.le]
  have hdivlt : a / dMax < b / dMax := (div_lt_div_right hM).mpr hab
  have hdiv0 : 0 ≤ a / dMax := div_nonneg ha0.le hM.le
  have hpow : (a / dMax) ^ 4 < (b / dMax) ^ 4 := pow_lt_pow_left hdivlt hdiv0 (by norm_num)
  have hwlt : 1 - (b / dMax) ^ 4 < 1 - (a / dMax) ^ 4 := by linarith
  have hw2 : (1 - (b / dMax) ^ 4) ^ 2 < (1 - (a / dMax) ^ 4) ^ 2 :=
    pow_lt_pow_left hwlt hwb.le (by norm_num)
  have hflt : d0 / b < d0 / a := div_lt_div_of_pos_left h0 ha0 hab
  have hf0 : 0 ≤ d0 / b := div_nonneg h0.le hb0.le
  have hf2 : (d0 / b) ^ 2 < (d0 / a) ^ 2 := pow_lt_pow_left hflt hf0 (by norm_num)
  exact mul_lt_mul'' hw2 hf2 (by positivity) (by positivity)

/-- C6: for all `0 < d0 < dMax`, `CalculateDistanceFalloff` is `1` for every
`d ≤ d0`, `0` at `d = dMax` and beyond, and strictly decreasing in `d` on
`d0 < d < dMax`. -/
theorem falloff_boundary_and_monotonicity (d0 dMax : ℚ)
    (h0 : 0 < d0) (h1 : d0 < dMax) :
    (∀ d, d ≤ d0 → CalculateDistanceFalloff d d0 dMax = 1) ∧
    (∀ d, dMax ≤ d → CalculateDistanceFalloff d d0 dMax = 0) ∧
    (∀ a b, d0 < a → a < b → b < dMax →
      CalculateDistanceFalloff b d0 dMax < CalculateDistanceFalloff a d0 dMax) := by
  refine ⟨?_, ?_, ?_⟩
  · intro d hd
    unfold CalculateDistanceFalloff
    rw [if_neg (by linarith), if_pos hd]
  · intro d hd
    unfold CalculateDistanceFalloff
    rw [if_pos hd]
  · intro a b hda hab hbM
    exact calculateDistanceFalloff_strictAnti h0 hda hab hbM

/-- Closed instance of `falloff_boundary_and_monotonicity` at `d0 = 1`,
`dMax = 4`. -/
theorem falloff_boundary_and_monotonicity_witness :
    (0:ℚ) < 1 ∧ (1:ℚ) < 4 ∧
    ((∀ d, d ≤ (1:ℚ) → CalculateDistanceFalloff d 1 4 = 1) ∧
    (∀ d, (4:ℚ) ≤ d → CalculateDistanceFalloff d 1 4 = 0) ∧
    (∀ a b, (1:ℚ) < a → a < b → b < 4 →
      CalculateDistanceFalloff b 1 4 < CalculateDistanceFalloff a 1 4)) :=
  ⟨by norm_num, by norm_num,
    falloff_boundary_and_monotonicity 1 4 (by norm_num) (by norm_num)⟩

/-! ### Direct-light gather (dx_lightbaker.cpp) -/

/-- The value of the `M_PI` double constant used by the baker's float math. -/
def M_PI : ℚ := 3.14159265358979323846

/-- `GetDiffuseBRDF()`: constant Lambertian BRDF with the placeholder
`albedo = 0.5`, i.e. `albedo / M_PI`. -/
def GetDiffuseBRDF : ℚ := 0.5 / M_PI

/-- A static point light as consumed by
`GatherDirectIrradianceFromPointLights`: origin, color, intensity and radius
(the radius plays the `dist0` role in the falloff). -/
structure PointLight where
  origin : Float4
  color : Float4
  intensity : ℚ
  radius : ℚ

/-- A static area light as consumed by `GatherDirectIradianceFromAreaLight`:
base radiance and total mesh area. -/
structure AreaLight where
  radiance : Float4
  area : ℚ

/-- The base radiance of a point light:
`sseLightBaseRadiance = light.color * light.intensity`. -/
def pointLightBaseRadiance (light : PointLight) : Float4 :=
  Float4.smul light.intensity light.color

/-- The radiance accumulated for one accepted point-light sample:
`GetDiffuseBRDF() * distanceFalloff * sseLightBaseRadiance * nDotL`, where the
falloff is `CalculateDistanceFalloff(distanceToLight, light.radius, maxDist)`.
The distance, the dot product and the `Settings::POINT_LIGHTS_MAX_DISTANCE`
constant are parameters of the embedding. -/
def pointLightSampleRadiance (light : PointLight) (distanceToLight nDotL maxDist : ℚ) :
    Float4 :=
  Float4.smul
    (GetDiffuseBRDF * CalculateDistanceFalloff distanceToLight light.radius maxDist * nDotL)
    (pointLightBaseRadiance light)

/-- The radiance accumulated for one accepted area-light sample:
`GetDiffuseBRDF() * light.radiance * distanceFalloff * nDotL`, where the
falloff is `CalculateDistanceFalloff(distanceToSample, minDist, maxDist)` with
the `Settings::AREA_LIGHTS_{MIN,MAX}_DISTANCE` constants as parameters. -/
def areaLightSampleRadiance (light : AreaLight) (distanceToSample nDotL minDist maxDist : ℚ) :
    Float4 :=
  Float4.smul
    (GetDiffuseBRDF * CalculateDistanceFalloff distanceToSample minDist maxDist * nDotL)
    light.radiance

lemma getDiffuseBRDF_pos : 0 < GetDiffuseBRDF := by norm_num [GetDiffuseBRDF, M_PI]

lemma getDiffuseBRDF_le_one : GetDiffuseBRDF ≤ 1 := by norm_num [GetDiffuseBRDF, M_PI]

/-- The scale factor `brdf * falloff * nDotL` of an accepted sample lies in
`[0, 1]`. -/
lemma sampleScale_mem_unit (dist d0 dMax nDotL : ℚ)
    (hd0 : 0 ≤ d0) (hn0 : 0 < nDotL) (hn1 : nDotL ≤ 1) :
    0 ≤ GetDiffuseBRDF * CalculateDistanceFalloff dist d0 dMax * nDotL ∧
    GetDiffuseBRDF * CalculateDistanceFalloff dist d0 dMax * nDotL ≤ 1 := by
  have hf0 := calculateDistanceFalloff_nonneg dist d0 dMax
  have hf1 := calculateDistanceFalloff_le_one dist d0 dMax hd0
  constructor
  · have := getDiffuseBRDF_pos
    positivity
  · calc GetDiffuseBRDF * CalculateDistanceFalloff dist d0 dMax * nDotL
        ≤ 1 * 1 * 1 := by
          apply mul_le_mul _ hn1 hn0.le (by norm_num)
          apply mul_le_mul getDiffuseBRDF_le_one hf1 hf0 (by norm_num)
      _ = 1 := by norm_num

/-- A scale in `[0,1]` applied to a nonnegative channel keeps the channel
between `0` and its base value. -/
lemma smul_channel_bound {s c : ℚ} (hs0 : 0 ≤ s) (hs1 : s ≤ 1) (hc : 0 ≤ c) :
    0 ≤ s * c ∧ s * c ≤ c := by
  constructor
  · exact mul_nonneg hs0 hc
  · calc s * c ≤ 1 * c := mul_le_mul_of_nonneg_right hs1 hc
      _ = c := one_mul c

/-- C7: any direct-light sample that passes the rejection tests (positive
`n·l`, within distance) with nonnegative light color/radiance and intensity
has each RGB channel of its accumulated radiance between `0` and the
corresponding channel of the light's base radiance, so the
`ENABLE_VALIDATION` assertions of both gather loops hold. -/
theorem direct_light_sample_energy_conservation
    (pl : PointLight) (al : AreaLight)
    (distP nDotLP maxDistP distA nDotLA minDistA maxDistA : ℚ)
    (hplRadius : 0 ≤ pl.radius)
    (hplI : 0 ≤ pl.intensity)
    (hplC : 0 ≤ pl.color.x ∧ 0 ≤ pl.color.y ∧ 0 ≤ pl.color.z)
    (hnP0 : 0 < nDotLP) (hnP1 : nDotLP ≤ 1)
    (halMin : 0 ≤ minDistA)
    (halR : 0 ≤ al.radiance.x ∧ 0 ≤ al.radiance.y ∧ 0 ≤ al.radiance.z)
    (hnA0 : 0 < nDotLA) (hnA1 : nDotLA ≤ 1) :
    (0 ≤ (pointLightSampleRadiance pl distP nDotLP maxDistP).x ∧
      (pointLightSampleRadiance pl distP nDotLP maxDistP).x ≤
        (pointLightBaseRadiance pl).x) ∧
    (0 ≤ (pointLightSampleRadiance pl distP nDotLP maxDistP).y ∧
      (pointLightSampleRadiance pl distP nDotLP maxDistP).y ≤
        (pointLightBaseRadiance pl).y) ∧
    (0 ≤ (pointLightSampleRadiance pl distP nDotLP maxDistP).z ∧
      (pointLightSampleRadiance pl distP nDotLP maxDistP).z ≤
        (pointLightBaseRadiance pl).z) ∧
    (0 ≤ (areaLightSampleRadiance al distA nDotLA minDistA maxDistA).x ∧
      (areaLightSampleRadiance al distA nDotLA minDistA maxDistA).x ≤ al.radiance.x) ∧
    (0 ≤ (areaLightSampleRadiance al distA nDotLA minDistA maxDistA).y ∧
      (areaLightSampleRadiance al distA nDotLA minDistA maxDistA).y ≤ al.radiance.y) ∧
    (0 ≤ (areaLightSampleRadiance al distA nDotLA minDistA maxDistA).z ∧
      (areaLightSampleRadiance al distA nDotLA minDistA maxDistA).z ≤ al.radiance.z) := by
  obtain ⟨hsP0, hsP1⟩ := sampleScale_mem_unit distP pl.radius maxDistP nDotLP
    hplRadius hnP0 hnP1
  obtain ⟨hsA0, hsA1⟩ := sampleScale_mem_unit distA minDistA maxDistA nDotLA
    halMin hnA0 hnA1
  have hbx : 0 ≤ (pointLightBaseRadiance pl).x := mul_nonneg hplI hplC.1
  have hby : 0 ≤ (pointLightBaseRadiance pl).y := mul_nonneg hplI hplC.2.1
  have hbz : 0 ≤ (pointLightBaseRadiance pl).z := mul_nonneg hplI hplC.2.2
  refine ⟨?_, ?_, ?_, ?_, ?_, ?_⟩
  · exact smul_channel_bound hsP0 hsP1 hbx
  · exact smul_channel_bound hsP0 hsP1 hby
  · exact smul_channel_bound hsP0 hsP1 hbz
  · exact smul_channel_bound hsA0 hsA1 halR.1
  · exact smul_channel_bound hsA0 hsA1 halR.2.1
  · exact smul_channel_bound hsA0 hsA1 halR.2.2

/-- Closed instance of `direct_light_sample_energy_conservation` at a concrete
point light, area light and accepted-sample geometry. -/
theorem direct_light_sample_energy_conservation_witness :
    ((0:ℚ) ≤ 5 ∧ (0:ℚ) ≤ 2 ∧ ((0:ℚ) ≤ 1 ∧ (0:ℚ) ≤ 1 ∧ (0:ℚ) ≤ 1) ∧
      (0:ℚ) < 1/2 ∧ (1:ℚ)/2 ≤ 1 ∧ (0:ℚ) ≤ 1 ∧
      ((0:ℚ) ≤ 3 ∧ (0:ℚ) ≤ 3 ∧ (0:ℚ) ≤ 3) ∧ (0:ℚ) < 1/3 ∧ (1:ℚ)/3 ≤ 1) ∧
    (0 ≤ (pointLightSampleRadiance ⟨⟨0,0,0,0⟩, ⟨1,1,1,0⟩, 2, 5⟩ 20 (1/2) 100).x ∧
      (pointLightSampleRadiance ⟨⟨0,0,0,0⟩, ⟨1,1,1,0⟩, 2, 5⟩ 20 (1/2) 100).x ≤
        (pointLightBaseRadiance ⟨⟨0,0,0,0⟩, ⟨1,1,1,0⟩, 2, 5⟩).x) := by
  refine ⟨by norm_num, ?_⟩
  exact (direct_light_sample_energy_conservation
    ⟨⟨0,0,0,0⟩, ⟨1,1,1,0⟩, 2, 5⟩ ⟨⟨3,3,3,0⟩, 7⟩ 20 (1/2) 100 30 (1/3) 1 200
    (by norm_num) (by norm_num) ⟨by norm_num, by norm_num, by norm_num⟩
    (by norm_num) (by norm_num) (by norm_num)
    ⟨by norm_num, by norm_num, by norm_num⟩ (by norm_num) (by norm_num)).1

/-! ### `BufferAllocator` (dx_buffer.h) -/

/-- An `Allocation` record of the buffer sub-allocator: byte offset and size.
`INVALID_OFFSET = -1`. -/
structure Allocation where
  offset : ℤ
  size : ℤ
deriving DecidableEq

/-- The "check between existing allocations" block of
`BufferAllocator::Allocate`: walk adjacent pairs; at the first gap
`next.offset - (curr.offset + curr.size) >= size` do
`allocations.insert(currAllocIt, {currAllocEnd, size})` — `std::list::insert`
places the new node *before* `currAllocIt` — and return `currAllocEnd`.
`none` means the loop fell through without returning. -/
def allocateBetween (size : ℤ) : List Allocation → Option (List Allocation × ℤ)
  | curr :: next :: rest =>
      let currAllocEnd := curr.offset + curr.size
      if next.offset - currAllocEnd ≥ size then
        some (⟨currAllocEnd, size⟩ :: curr :: next :: rest, currAllocEnd)
      else
        match allocateBetween size (next :: rest) with
        | some (l, off) => some (curr :: l, off)
        | none => none
  | _ => none

/-- `BufferAllocator<SIZE>::Allocate(size)`, acting on the allocation list and
returning the updated list together with the returned offset
(`-1 = Allocation::INVALID_OFFSET` on the `assert(false)` path).

Block 1 ("check before existing allocations") pushes `{0, size}` at the front
when the front gap fits but — as in the source — does *not* return. Block 2
scans the gaps between adjacent allocations. Block 3 ("check after existing
allocations") appends after the last allocation, else asserts and returns
`INVALID_OFFSET`. -/
def BufferAllocator.Allocate (SIZE : ℤ) (allocations : List Allocation) (size : ℤ) :
    List Allocation × ℤ :=
  -- Block 1: check before existing allocations (falls through, no return)
  let allocations :=
    let nextOffset := match allocations with
      | [] => SIZE
      | a :: _ => a.offset
    if nextOffset ≥ size then ⟨0, size⟩ :: allocations else allocations
  -- Block 2: check between existing allocations
  match allocateBetween size allocations with
  | some (l, off) => (l, off)
  | none =>
    -- Block 3: check after existing allocations
    match allocations.getLast? with
    | some lastAlloc =>
        let lastAllocEnd := lastAlloc.offset + lastAlloc.size
        if SIZE - lastAllocEnd ≥ size then
          (allocations ++ [⟨lastAllocEnd, size⟩], lastAllocEnd)
        else (allocations, -1)
    | none => (allocations, -1)

/-- `BufferAllocator<SIZE>::Delete(offset)`: erase the allocation whose offset
matches; the not-found case assert-returns with the list unchanged. -/
def BufferAllocator.Delete (allocations : List Allocation) (offset : ℤ) :
    List Allocation :=
  match allocations.findIdx? (fun a => a.offset = offset) with
  | some i => allocations.eraseIdx i
  | none => allocations

/-- C10 (code bug): block 1 of `Allocate` pushes the front allocation but does
not return, so the call falls through to the later blocks. On an empty
allocator of `SIZE = 4`, `Allocate(2)` inserts *two* allocations
`{0,2}, {2,2}` and returns `2` — the offset of the second one; `Allocate(4)`
records `{0,4}` and then still hits `assert(false && "Failed to allocate part
of buffer")`, returning `INVALID_OFFSET` for memory it just recorded. -/
theorem bufferAllocator_allocate_double_insert :
    BufferAllocator.Allocate 4 [] 2 = ([⟨0, 2⟩, ⟨2, 2⟩], 2) ∧
    BufferAllocator.Allocate 4 [] 4 = ([⟨0, 4⟩], -1) := by
  constructor <;> rfl

/-! ### `FrameGraphBuilder::PreprocessPassFiles` (dx_framegraphbuilder.cpp) -/

/-- One recorded `#include` directive: included file name, byte position of
the directive in the pass file, and directive length. -/
structure Include where
  name : String
  pos : ℤ
  len : ℤ

/-- Insertion step for ascending-by-position ordering. -/
def insertIncludeByPos (inc : Include) : List Include → List Include
  | [] => [inc]
  | j :: rest =>
      if inc.pos < j.pos then inc :: j :: rest else j :: insertIncludeByPos inc rest

/-- `std::sort` with comparator `rv.pos < lv.pos`: the include list ordered by
ascending position. -/
def sortIncludesByPos : List Include → List Include
  | [] => []
  | i :: rest => insertIncludeByPos i (sortIncludesByPos rest)

/-- `std::string::substr(pos, count)` on a file modelled as a character list:
throws (`none`) when `pos > size()`; a negative `count` (an `int` converted to
`size_t`) wraps to a huge value and is clamped to the rest of the string. -/
def substrClamped (s : List Char) (pos cnt : ℤ) : Option (List Char) :=
  if pos > (s.length : ℤ) then none
  else if cnt < 0 then some (s.drop pos.toNat)
  else some ((s.drop pos.toNat).take cnt.toNat)

/-- One-argument `std::string::substr(pos)`: rest of the string, throwing
(`none`) when `pos > size()`. -/
def substrFrom (s : List Char) (pos : ℤ) : Option (List Char) :=
  if pos > (s.length : ℤ) then none else some (s.drop pos.toNat)

/-- The include-substitution loop body of `PreprocessPassFiles` for one file:
`processedFile += currentFile.substr(currentPos, include.pos - currentPos);
currentPos += include.pos + include.len;
processedFile += <contents of the included file>` — note the source's
`currentPos +=` (not `=`). Returns the final `(processedFile, currentPos)`. -/
def preprocessLoop (file : List Char) (contents : String → List Char) :
    List Include → List Char → ℤ → Option (List Char × ℤ)
  | [], processed, currentPos => some (processed, currentPos)
  | inc :: rest, processed, currentPos => do
      let chunk ← substrClamped file currentPos (inc.pos - currentPos)
      preprocessLoop file contents rest (processed ++ chunk ++ contents inc.name)
        (currentPos + inc.pos + inc.len)

/-- `PreprocessPassFiles` for a single pass file: sort the includes by
position, run the substitution loop, then append the tail only when
`currentPos + 1 != currentFile.size()`. `none` models a `substr` throw. -/
def PreprocessPassFile (file : List Char) (includes : List Include)
    (contents : String → List Char) : Option (List Char) := do
  let sorted := sortIncludesByPos includes
  let (processed, currentPos) ← preprocessLoop file contents sorted [] 0
  if currentPos + 1 = (file.length : ℤ) then
    pure processed
  else do
    let tail ← substrFrom file currentPos
    pure (processed ++ tail)

/-- The substitution `PreprocessPassFiles` is specified to compute: each
directive's byte range replaced by the included file's contents, all bytes
outside the ranges kept. Assumes the includes are sorted by position. -/
def specSubstitute (file : List Char) (contents : String → List Char) :
    List Include → ℤ → List Char
  | [], currentPos => file.drop currentPos.toNat
  | inc :: rest, currentPos =>
      ((file.drop currentPos.toNat).take (inc.pos - currentPos).toNat) ++
        contents inc.name ++ specSubstitute file contents rest (inc.pos + inc.len)

/-- C10-style demonstration inputs for C5. A file `"Xa"` whose first byte is
an include directive of length 1, and a two-include file `"##ab##cdefgh"`. -/
def c5contents : String → List Char
  | "A" => ['P']
  | "B" => ['Q']
  | _ => ['I']

/-- C5 (code bug): preprocessing does not reproduce the text outside the
directive ranges. With file `"Xa"` and one include `{pos 0, len 1}` the
trailing byte `'a'` is dropped (the tail is skipped exactly when
`currentPos + 1 == size()`); with file `"##ab##cdefgh"` and includes
`{pos 0, len 2}`, `{pos 4, len 2}` the bytes `"cd"` vanish because
`currentPos += include.pos + include.len` overshoots. The specified outputs
would be `"Ia"` and `"PabQcdefgh"` respectively. -/
theorem preprocessPassFiles_drops_bytes :
    PreprocessPassFile "Xa".toList [⟨"I", 0, 1⟩] c5contents = some "I".toList ∧
    specSubstitute "Xa".toList c5contents (sortIncludesByPos [⟨"I", 0, 1⟩]) 0 =
      "Ia".toList ∧
    PreprocessPassFile "##ab##cdefgh".toList [⟨"A", 0, 2⟩, ⟨"B", 4, 2⟩] c5contents =
      some "PabQefgh".toList ∧
    specSubstitute "##ab##cdefgh".toList c5contents
      (sortIncludesByPos [⟨"A", 0, 2⟩, ⟨"B", 4, 2⟩]) 0 = "PabQcdefgh".toList := by
  refine ⟨?_, ?_, ?_, ?_⟩ <;> rfl

/-! ### `LightBaker::GenerateClusterBakePoints` (dx_lightbaker.cpp) -/

/-- An axis-aligned bounding box, as `Utils::AABB`. -/
structure AABB where
  minVert : Float4
  maxVert : Float4

/-- The per-axis grid count of `GenerateClusterBakePoints`: the cluster AABB is
first shrunk by `epsilon` on each side, then the count is
`std::ceil((maxVert - minVert) / bakePointsInterval)` with
`bakePointsInterval = 50`. There is no lower clamp. `epsilon` stands for
`Settings::PATH_TRACING_EPSILON`, whose definition is outside the analysed
sources. -/
def axisBakePointsNum (minCoord maxCoord epsilon : ℚ) : ℤ :=
  ⌈((maxCoord - epsilon) - (minCoord + epsilon)) / 50⌉

/-- The grid coordinate of bake point `i` along one axis:
`min(minVert + 50 * i, maxVert)` on the shrunk AABB. -/
def axisBakePointCoord (minCoord maxCoord epsilon : ℚ) (i : ℕ) : ℚ :=
  min ((minCoord + epsilon) + 50 * i) (maxCoord - epsilon)

/-- `LightBaker::GenerateClusterBakePoints`: the triple loop over the per-axis
grid counts, pushing `{min(minX + 50*xIt, maxX), …, 1.0}` for each grid cell
of the epsilon-shrunk AABB. -/
def GenerateClusterBakePoints (epsilon : ℚ) (aabb : AABB) : List Float4 :=
  let xNum := (axisBakePointsNum aabb.minVert.x aabb.maxVert.x epsilon).toNat
  let yNum := (axisBakePointsNum aabb.minVert.y aabb.maxVert.y epsilon).toNat
  let zNum := (axisBakePointsNum aabb.minVert.z aabb.maxVert.z epsilon).toNat
  (List.range xNum).flatMap fun xIt =>
    (List.range yNum).flatMap fun yIt =>
      (List.range zNum).map fun zIt =>
        ⟨axisBakePointCoord aabb.minVert.x aabb.maxVert.x epsilon xIt,
         axisBakePointCoord aabb.minVert.y aabb.maxVert.y epsilon yIt,
         axisBakePointCoord aabb.minVert.z aabb.maxVert.z epsilon zIt,
         1⟩

/-- C9 counterexample: with `epsilon = 1/1000` and a cluster AABB whose x
extent `1/2000` is smaller than `epsilon` (y and z extents 100), the x-axis
grid count is `0`, not the claimed clamped `1`, and the cluster receives no
bake points at all. -/
theorem clusterBakePoints_thin_axis_counterexample :
    axisBakePointsNum 0 (1/2000) (1/1000) = 0 ∧
    GenerateClusterBakePoints (1/1000)
      ⟨⟨0, 0, 0, 0⟩, ⟨1/2000, 100, 100, 0⟩⟩ = [] := by
  have hx : axisBakePointsNum 0 (1/2000) (1/1000) = 0 := by
    unfold axisBakePointsNum
    norm_num
  refine ⟨hx, ?_⟩
  unfold GenerateClusterBakePoints
  simp only []
  norm_num [hx]

/-- A shrunken axis whose original extent is below `epsilon` has a nonpositive
grid count: the ceiling of a negative length, with no clamp to 1. -/
lemma axisBakePointsNum_nonpos (lo hi epsilon : ℚ) (heps : 0 < epsilon)
    (hthin : hi - lo < epsilon) : axisBakePointsNum lo hi epsilon ≤ 0 := by
  have hneg : ((hi - epsilon) - (lo + epsilon)) / 50 ≤ 0 := by
    apply div_nonpos_of_nonpos_of_nonneg _ (by norm_num)
    linarith
  unfold axisBakePointsNum
  exact Int.ceil_le.mpr (by exact_mod_cast hneg)

/-- C9 (amended): for every positive `epsilon`, a cluster AABB whose extent
along *some* axis is smaller than `epsilon` yields a grid count of at most `0`
along that axis (the ceiling of a negative length — there is no clamp to 1),
hence an empty bake-point list for the whole cluster. -/
theorem clusterBakePoints_thin_axis_empty (epsilon : ℚ) (aabb : AABB)
    (heps : 0 < epsilon)
    (hthin : aabb.maxVert.x - aabb.minVert.x < epsilon ∨
      aabb.maxVert.y - aabb.minVert.y < epsilon ∨
      aabb.maxVert.z - aabb.minVert.z < epsilon) :
    (aabb.maxVert.x - aabb.minVert.x < epsilon →
      axisBakePointsNum aabb.minVert.x aabb.maxVert.x epsilon ≤ 0) ∧
    (aabb.maxVert.y - aabb.minVert.y < epsilon →
      axisBakePointsNum aabb.minVert.y aabb.maxVert.y epsilon ≤ 0) ∧
    (aabb.maxVert.z - aabb.minVert.z < epsilon →
      axisBakePointsNum aabb.minVert.z aabb.maxVert.z epsilon ≤ 0) ∧
    GenerateClusterBakePoints epsilon aabb = [] := by
  refine ⟨fun h => axisBakePointsNum_nonpos _ _ _ heps h,
    fun h => axisBakePointsNum_nonpos _ _ _ heps h,
    fun h => axisBakePointsNum_nonpos _ _ _ heps h, ?_⟩
  unfold GenerateClusterBakePoints
  rcases hthin with hx | hy | hz
  · have h0 : (axisBakePointsNum aabb.minVert.x aabb.maxVert.x epsilon).toNat = 0 :=
      Int.toNat_of_nonpos (axisBakePointsNum_nonpos _ _ _ heps hx)
    simp [h0]
  · have h0 : (axisBakePointsNum aabb.minVert.y aabb.maxVert.y epsilon).toNat = 0 :=
      Int.toNat_of_nonpos (axisBakePointsNum_nonpos _ _ _ heps hy)
    simp [h0]
  · have h0 : (axisBakePointsNum aabb.minVert.z aabb.maxVert.z epsilon).toNat = 0 :=
      Int.toNat_of_nonpos (axisBakePointsNum_nonpos _ _ _ heps hz)
    simp [h0]

/-- Closed instance of `clusterBakePoints_thin_axis_empty` at the
counterexample input (thin along the x axis). -/
theorem clusterBakePoints_thin_axis_empty_witness :
    (0:ℚ) < 1/1000 ∧ ((1:ℚ)/2000 - 0 < 1/1000 ∨ (100:ℚ) - 0 < 1/1000 ∨
      (100:ℚ) - 0 < 1/1000) ∧
    (((1:ℚ)/2000 - 0 < 1/1000 → axisBakePointsNum 0 (1/2000) (1/1000) ≤ 0) ∧
      ((100:ℚ) - 0 < 1/1000 → axisBakePointsNum 0 100 (1/1000) ≤ 0) ∧
      ((100:ℚ) - 0 < 1/1000 → axisBakePointsNum 0 100 (1/1000) ≤ 0) ∧
      GenerateClusterBakePoints (1/1000) ⟨⟨0, 0, 0, 0⟩, ⟨1/2000, 100, 100, 0⟩⟩ = []) :=
  ⟨by norm_num, Or.inl (by norm_num),
    clusterBakePoints_thin_axis_empty (1/1000) ⟨⟨0, 0, 0, 0⟩, ⟨1/2000, 100, 100, 0⟩⟩
      (by norm_num) (Or.inl (by norm_num))⟩

/-! ### `LightBaker::PreBake` (dx_lightbaker.cpp) -/

/-- The prefix-sum loop of `PreBake`: for each cluster `i`,
`clusterFirstProbeIndices[i] = totalProbes; totalProbes += clusterBakePoints[i].size()`.
Returns the filled `clusterFirstProbeIndices` for a given running total. -/
def preBakeFirstProbeLoop : List (List Float4) → ℕ → List ℕ
  | [], _ => []
  | cluster :: rest, totalProbes =>
      totalProbes :: preBakeFirstProbeLoop rest (totalProbes + cluster.length)

/-- The final `totalProbes` of the `PreBake` loop, i.e. the length
`transferableData.probes.resize(totalProbes)` gives the probe array. -/
def preBakeTotalProbes : List (List Float4) → ℕ → ℕ
  | [], totalProbes => totalProbes
  | cluster :: rest, totalProbes => preBakeTotalProbes rest (totalProbes + cluster.length)

/-- `transferableData.clusterFirstProbeIndices` as computed by `PreBake`. -/
def PreBake_clusterFirstProbeIndices (clusterBakePoints : List (List Float4)) : List ℕ :=
  preBakeFirstProbeLoop clusterBakePoints 0

/-- `transferableData.probes.size()` as computed by `PreBake`. -/
def PreBake_probesLength (clusterBakePoints : List (List Float4)) : ℕ :=
  preBakeTotalProbes clusterBakePoints 0

lemma preBakeFirstProbeLoop_length (cbp : List (List Float4)) (t : ℕ) :
    (preBakeFirstProbeLoop cbp t).length = cbp.length := by
  induction cbp generalizing t with
  | nil => rfl
  | cons c rest ih => simp [preBakeFirstProbeLoop, ih]

lemma preBakeFirstProbeLoop_getD (cbp : List (List Float4)) (t c : ℕ)
    (hc : c < cbp.length) :
    (preBakeFirstProbeLoop cbp t).getD c 0 =
      t + ((cbp.take c).map List.length).sum := by
  induction cbp generalizing t c with
  | nil => simp at hc
  | cons cl rest ih =>
      cases c with
      | zero => simp [preBakeFirstProbeLoop]
      | succ c =>
          have hc' : c < rest.length := by simpa using hc
          simp only [preBakeFirstProbeLoop, List.getD_cons_succ, List.take_succ_cons,
            List.map_cons, List.sum_cons]
          rw [ih (t + cl.length) c hc']
          ring

lemma preBakeTotalProbes_eq (cbp : List (List Float4)) (t : ℕ) :
    preBakeTotalProbes cbp t = t + (cbp.map List.length).sum := by
  induction cbp generalizing t with
  | nil => simp [preBakeTotalProbes]
  | cons cl rest ih =>
      simp only [preBakeTotalProbes, List.map_cons, List.sum_cons]
      rw [ih]
      ring

lemma preBakeFirstProbeLoop_getD_succ_sub (cbp : List (List Float4)) (t c : ℕ)
    (hc : c + 1 < cbp.length) :
    (preBakeFirstProbeLoop cbp t).getD (c + 1) 0 -
      (preBakeFirstProbeLoop cbp t).getD c 0 = (cbp.getD c []).length := by
  induction cbp generalizing t c with
  | nil => simp at hc
  | cons cl rest ih =>
      cases c with
      | zero =>
          cases rest with
          | nil => simp at hc
          | cons cl2 rest2 =>
              simp [preBakeFirstProbeLoop]
      | succ c =>
          have hc' : c + 1 < rest.length := by simpa using hc
          simpa [preBakeFirstProbeLoop] using ih (t + cl.length) c hc'

/-- C3: after `PreBake`, `clusterFirstProbeIndices[c]` is the sum of the
bake-point counts of all clusters before `c`, consecutive entries differ by
exactly the cluster's bake-point count, and the probe array length is the sum
of all bake-point counts. -/
theorem preBake_prefix_sum_invariant (clusterBakePoints : List (List Float4)) :
    (∀ c, c < clusterBakePoints.length →
      (PreBake_clusterFirstProbeIndices clusterBakePoints).getD c 0 =
        ((clusterBakePoints.take c).map List.length).sum) ∧
    (∀ c, c + 1 < clusterBakePoints.length →
      (PreBake_clusterFirstProbeIndices clusterBakePoints).getD (c + 1) 0 -
        (PreBake_clusterFirstProbeIndices clusterBakePoints).getD c 0 =
        (clusterBakePoints.getD c []).length) ∧
    PreBake_probesLength clusterBakePoints =
      (clusterBakePoints.map List.length).sum := by
  refine ⟨?_, ?_, ?_⟩
  · intro c hc
    unfold PreBake_clusterFirstProbeIndices
    rw [preBakeFirstProbeLoop_getD clusterBakePoints 0 c hc]
    ring
  · intro c hc
    exact preBakeFirstProbeLoop_getD_succ_sub clusterBakePoints 0 c hc
  · unfold PreBake_probesLength
    rw [preBakeTotalProbes_eq]
    ring

/-- Closed instance of `preBake_prefix_sum_invariant` on a three-cluster
layout with 1, 0 and 2 bake points. -/
theorem preBake_prefix_sum_invariant_witness :
    (1 < [[(⟨0,0,0,1⟩ : Float4)], [], [⟨0,0,0,1⟩, ⟨50,0,0,1⟩]].length ∧
      (PreBake_clusterFirstProbeIndices
          [[(⟨0,0,0,1⟩ : Float4)], [], [⟨0,0,0,1⟩, ⟨50,0,0,1⟩]]).getD 1 0 =
        (([[(⟨0,0,0,1⟩ : Float4)], [], [⟨0,0,0,1⟩, ⟨50,0,0,1⟩]].take 1).map
          List.length).sum) ∧
    PreBake_probesLength [[(⟨0,0,0,1⟩ : Float4)], [], [⟨0,0,0,1⟩, ⟨50,0,0,1⟩]] = 3 := by
  constructor
  · constructor
    · decide
    · exact (preBake_prefix_sum_invariant
        [[(⟨0,0,0,1⟩ : Float4)], [], [⟨0,0,0,1⟩, ⟨50,0,0,1⟩]]).1 1 (by decide)
  · rfl

/-! ### `LightBaker::PathTraceFromProbe` (dx_lightbaker.cpp) -/

/-- `GetCosineWeightedSamplePDF(cosTheta) = cosTheta / M_PI`. -/
def GetCosineWeightedSamplePDF (cosTheta : ℚ) : ℚ := cosTheta / M_PI

/-- The data a bounce step of the path-tracing loop obtains from the BSP and
the light gather: the direct irradiance at the reconstructed hit point and the
`n·l` of the freshly sampled cosine-weighted ray. `none` models
`FindClosestRayIntersection` reporting a miss. -/
structure BounceHit where
  directIrradiance : Float4
  nDotL : ℚ

/-- The `while(true)` loop of `PathTraceFromProbe`, parametrised by
`Settings::GUARANTEED_BOUNCES_NUM` (the `guaranteedBounces` argument) and by
the per-bounce intersection oracle `hitAt`.

Each iteration: when `rayBounce < GUARANTEED_BOUNCES_NUM` is false the loop
`break`s unconditionally — the Russian-roulette draw and the
`1 - RUSSIAN_ROULETTE_ABSORBTION_PROBABILITY` throughput rescale sit *after*
that `break` and are unreachable, which the returned flag records as `false`.
On a miss the loop breaks; on a hit it accumulates
`radiance += throughput * directIrradiance`, rescales
`throughput *= GetDiffuseBRDF() * nDotL / GetCosineWeightedSamplePDF(nDotL)`
and increments `rayBounce`. Returns
`(radiance, rayBounce at exit, whether the roulette code ever ran)`. -/
def pathTraceLoop (guaranteedBounces : ℕ) (hitAt : ℕ → Option BounceHit)
    (rayBounce : ℕ) (radiance throughput : Float4) : Float4 × ℕ × Bool :=
  if rayBounce < guaranteedBounces then
    match hitAt rayBounce with
    | none => (radiance, rayBounce, false)
    | some hit =>
        pathTraceLoop guaranteedBounces hitAt (rayBounce + 1)
          (radiance.add (throughput.mul hit.directIrradiance))
          (Float4.smul (GetDiffuseBRDF * hit.nDotL / GetCosineWeightedSamplePDF hit.nDotL)
            throughput)
  else (radiance, rayBounce, false)
termination_by guaranteedBounces - rayBounce
decreasing_by simp_wf; omega

/-- `PathTraceFromProbe`'s loop entered with `rayBounce = 0` and unit
throughput, zero radiance. -/
def PathTraceFromProbe (guaranteedBounces : ℕ) (hitAt : ℕ → Option BounceHit) :
    Float4 × ℕ × Bool :=
  pathTraceLoop guaranteedBounces hitAt 0 ⟨0, 0, 0, 0⟩ ⟨1, 1, 1, 0⟩

lemma pathTraceLoop_bounded (guaranteedBounces : ℕ) (hitAt : ℕ → Option BounceHit) :
    ∀ fuel rayBounce radiance throughput, rayBounce ≤ guaranteedBounces →
      guaranteedBounces - rayBounce ≤ fuel →
      (pathTraceLoop guaranteedBounces hitAt rayBounce radiance throughput).2.1 ≤
          guaranteedBounces ∧
        (pathTraceLoop guaranteedBounces hitAt rayBounce radiance throughput).2.2 =
          false := by
  intro fuel
  induction fuel with
  | zero =>
      intro rayBounce radiance throughput hle hfuel
      have : rayBounce = guaranteedBounces := by omega
      rw [pathTraceLoop, if_neg (by omega)]
      refine ⟨?_, rfl⟩
      show rayBounce ≤ guaranteedBounces
      omega
  | succ fuel ih =>
      intro rayBounce radiance throughput hle hfuel
      rw [pathTraceLoop]
      by_cases hb : rayBounce < guaranteedBounces
      · rw [if_pos hb]
        cases hitAt rayBounce with
        | none =>
            refine ⟨?_, rfl⟩
            show rayBounce ≤ guaranteedBounces
            omega
        | some hit => exact ih (rayBounce + 1) _ _ (by omega) (by omega)
      · rw [if_neg hb]
        refine ⟨?_, rfl⟩
        show rayBounce ≤ guaranteedBounces
        omega

/-- C8: for every bounce bound and every intersection oracle, the path-tracing
loop of `PathTraceFromProbe` exits with at most `GUARANTEED_BOUNCES_NUM`
bounces executed, and the Russian-roulette continuation code (which sits
behind the unconditional `break`) never runs. -/
theorem pathTraceFromProbe_terminates_without_roulette
    (guaranteedBounces : ℕ) (hitAt : ℕ → Option BounceHit) :
    (PathTraceFromProbe guaranteedBounces hitAt).2.1 ≤ guaranteedBounces ∧
    (PathTraceFromProbe guaranteedBounces hitAt).2.2 = false := by
  unfold PathTraceFromProbe
  exact pathTraceLoop_bounded guaranteedBounces hitAt guaranteedBounces 0 _ _
    (Nat.zero_le _) (by omega)

/-! ### Baked-data serialization (dx_lightbaker.cpp) -/

/-- `LightBakingMode`: the two baking modes. -/
inductive LightBakingMode
  | AllClusters
  | CurrentPositionCluster
deriving DecidableEq

/-- The `LightBakingMode_Str` string table. Note the first entry is spelled
`"AllCluster"` in the source, without a trailing `s`. -/
def LightBakingMode_Str : List String := ["AllCluster", "CurrentPositionCluster"]

/-- `static_cast<int>(mode)`. -/
def bakingModeIndex : LightBakingMode → ℕ
  | .AllClusters => 0
  | .CurrentPositionCluster => 1

/-- `LightBaker::BakingModeToStr`: index into `LightBakingMode_Str`. -/
def BakingModeToStr (mode : LightBakingMode) : String :=
  LightBakingMode_Str.getD (bakingModeIndex mode) ""

/-- `LightBaker::StrToBakingMode`: linear search of `LightBakingMode_Str` for
the first matching entry; the not-found `DX_ASSERT` path is `none`. -/
def StrToBakingMode (s : String) : Option LightBakingMode :=
  match LightBakingMode_Str.findIdx? (fun t => t = s) with
  | some 0 => some .AllClusters
  | some 1 => some .CurrentPositionCluster
  | _ => none

/-- A diffuse probe: its 9 RGB SH coefficients
(`SphericalHarmonic9_t<XMFLOAT4> radianceSh`, length 9 by type in the
source). -/
structure DiffuseProbe where
  radianceSh : List Float4
deriving DecidableEq

/-- `BakingData`: mode, optional cluster, prefix-sum first-probe indices and
the flat probe array. -/
structure BakingData where
  bakingMode : Option LightBakingMode
  bakingCluster : Option ℤ
  clusterFirstProbeIndices : List ℤ
  probes : List DiffuseProbe
deriving DecidableEq

/-- A token of the baked-data text file: a word, a decimal integer, or a
fixed-9-decimal float literal `dec n` denoting `n * 10⁻⁹` (the stream is put
in `std::fixed << std::setprecision(9)` mode before the probe data). -/
inductive FileTok
  | str (s : String)
  | int (n : ℤ)
  | dec (n : ℤ)
deriving DecidableEq

/-- Emission of a float at fixed 9-decimal precision: round to the nearest
multiple of `10⁻⁹` (scaled). -/
def round9 (q : ℚ) : ℤ := round (q * 1000000000)

/-- The rational value denoted by a fixed-9-decimal literal. -/
def dec9val (n : ℤ) : ℚ := (n : ℚ) / 1000000000

/-- The `"<x>, <y>, <z>"` line written for one SH coefficient. -/
def coefficientTokens (c : Float4) : List FileTok :=
  [.dec (round9 c.x), .dec (round9 c.y), .dec (round9 c.z)]

/-- The `"Probe <i>"` block: probe index line followed by the 9 coefficient
lines. -/
def probeTokens (i : ℕ) (p : DiffuseProbe) : List FileTok :=
  FileTok.str "Probe" :: FileTok.int i :: p.radianceSh.flatMap coefficientTokens

/-- The probe blocks of the probe-data section, numbering probes from `i`. -/
def probesTokens : ℕ → List DiffuseProbe → List FileTok
  | _, [] => []
  | i, p :: rest => probeTokens i p ++ probesTokens (i + 1) rest

/-- `LightBaker::SaveBakingResultsToFile`: the serialized token stream.
Sections in source order: `BakingMode <str>`; `BakingCluster <int>` only for
`CurrentPositionCluster`; `ClusterFirstProbeIndices <count> <ints…>` only for
`AllClusters`; `ProbeData <count>` followed by the probe blocks. The
dereferences of the empty `std::optional`s guarded by `DX_ASSERT` are
modelled as `none`. -/
def SaveBakingResultsToFile (bd : BakingData) : Option (List FileTok) := do
  let mode ← bd.bakingMode
  let clusterToks ←
    match mode with
    | LightBakingMode.CurrentPositionCluster => do
        let c ← bd.bakingCluster
        pure [FileTok.str "BakingCluster", FileTok.int c]
    | LightBakingMode.AllClusters =>
        pure (FileTok.str "ClusterFirstProbeIndices" ::
          FileTok.int bd.clusterFirstProbeIndices.length ::
          bd.clusterFirstProbeIndices.map FileTok.int)
  pure ([FileTok.str "BakingMode", FileTok.str (BakingModeToStr mode)] ++ clusterToks ++
    [FileTok.str "ProbeData", FileTok.int bd.probes.length] ++ probesTokens 0 bd.probes)

/-- Consume one expected keyword token. -/
def expectStrTok (s : String) : List FileTok → Option (List FileTok)
  | FileTok.str t :: rest => if t = s then some rest else none
  | _ => none

/-- Consume one word token (the grammar's `Word` rule). -/
def readWordTok : List FileTok → Option (String × List FileTok)
  | FileTok.str t :: rest => some (t, rest)
  | _ => none

/-- Consume one integer token (the grammar's `Int` rule). -/
def readIntTok : List FileTok → Option (ℤ × List FileTok)
  | FileTok.int n :: rest => some (n, rest)
  | _ => none

/-- Consume one `Float3` line: three decimal-float tokens, rebuilt as an
`XMFLOAT4` with `w = 0` by the `Float3` semantic action. -/
def readFloat3 : List FileTok → Option (Float4 × List FileTok)
  | FileTok.dec r :: FileTok.dec g :: FileTok.dec b :: rest =>
      some (⟨dec9val r, dec9val g, dec9val b, 0⟩, rest)
  | _ => none

/-- Consume `n` integer tokens (the `ClusterFirstProbeIndices` entries; the
semantic action checks the count against the header). -/
def readInts : ℕ → List FileTok → Option (List ℤ × List FileTok)
  | 0, toks => some ([], toks)
  | n + 1, toks => do
      let (v, toks) ← readIntTok toks
      let (vs, toks) ← readInts n toks
      pure (v :: vs, toks)

/-- Consume `n` SH-coefficient lines. -/
def readCoefficients : ℕ → List FileTok → Option (List Float4 × List FileTok)
  | 0, toks => some ([], toks)
  | n + 1, toks => do
      let (c, toks) ← readFloat3 toks
      let (cs, toks) ← readCoefficients n toks
      pure (c :: cs, toks)

/-- Consume one probe block; the `Probe` semantic action checks
`probeIndex == probes.size()` (modelled by the expected-index test) and reads
exactly 9 coefficients into `radianceSh`. -/
def readProbe (expected : ℕ) (toks : List FileTok) :
    Option (DiffuseProbe × List FileTok) := do
  let toks ← expectStrTok "Probe" toks
  let (i, toks) ← readIntTok toks
  if i = (expected : ℤ) then
    let (cs, toks) ← readCoefficients 9 toks
    pure (⟨cs⟩, toks)
  else none

/-- Consume `n` probe blocks with consecutive expected indices. -/
def readProbes : ℕ → ℕ → List FileTok → Option (List DiffuseProbe × List FileTok)
  | _, 0, toks => some ([], toks)
  | idx, n + 1, toks => do
      let (p, toks) ← readProbe idx toks
      let (ps, toks) ← readProbes (idx + 1) n toks
      pure (p :: ps, toks)

/-- Modelled from the spec: `LightBaker::LoadBakingResultsFromFile` parses the
baked-data text with a PEG grammar file (`GRAMMAR_LIGHT_BAKING_RESULT_FILENAME`)
that is not among the analysed sources; the token-level section structure
follows the spec's baked-data file format, and the semantic actions
(`LightBakingData`, `BakingModeSection`, `BakingCluster`,
`ClusterFirstProbeIndices`, `ProbeSection`, `Probe`, `Float3`) follow
`InitLightBakingResultParser` in the source. The parsed structure starts from
a default `BakingData` (no cluster, empty index list). -/
def LoadBakingResultsFromFile (toks : List FileTok) : Option BakingData := do
  let toks ← expectStrTok "BakingMode" toks
  let (w, toks) ← readWordTok toks
  let mode ← StrToBakingMode w
  let (clusterOpt, firstProbeIndices, toks) ←
    match mode with
    | LightBakingMode.AllClusters => do
        let toks ← expectStrTok "ClusterFirstProbeIndices" toks
        let (n, toks) ← readIntTok toks
        let (idxs, toks) ← readInts n.toNat toks
        pure ((none : Option ℤ), idxs, toks)
    | LightBakingMode.CurrentPositionCluster => do
        let toks ← expectStrTok "BakingCluster" toks
        let (c, toks) ← readIntTok toks
        pure (some c, ([] : List ℤ), toks)
  let toks ← expectStrTok "ProbeData" toks
  let (m, toks) ← readIntTok toks
  let (probes, toks) ← readProbes 0 m.toNat toks
  if toks = [] then
    pure ⟨some mode, clusterOpt, firstProbeIndices, probes⟩
  else none

/-- The coefficient obtained by parsing back an emitted coefficient line:
each channel rounded to 9 decimals, `w` reset to `0`. -/
def roundTripCoefficient (c : Float4) : Float4 :=
  ⟨dec9val (round9 c.x), dec9val (round9 c.y), dec9val (round9 c.z), 0⟩

/-- The probe obtained by serializing and parsing back a probe. -/
def roundTripProbe (p : DiffuseProbe) : DiffuseProbe :=
  ⟨p.radianceSh.map roundTripCoefficient⟩

lemma readFloat3_coefficientTokens (c : Float4) (rest : List FileTok) :
    readFloat3 (coefficientTokens c ++ rest) = some (roundTripCoefficient c, rest) := rfl

lemma readCoefficients_flatMap (cs : List Float4) (rest : List FileTok) :
    readCoefficients cs.length (cs.flatMap coefficientTokens ++ rest) =
      some (cs.map roundTripCoefficient, rest) := by
  induction cs with
  | nil => rfl
  | cons c cs ih =>
      simp only [List.length_cons, List.flatMap_cons, List.map_cons, List.append_assoc]
      rw [readCoefficients, readFloat3_coefficientTokens]
      simp [ih]

lemma readProbe_probeTokens (i : ℕ) (p : DiffuseProbe) (rest : List FileTok)
    (h9 : p.radianceSh.length = 9) :
    readProbe i (probeTokens i p ++ rest) = some (roundTripProbe p, rest) := by
  unfold readProbe probeTokens
  rw [← h9]
  simp [expectStrTok, readIntTok, readCoefficients_flatMap, roundTripProbe]

lemma readProbes_probesTokens (ps : List DiffuseProbe) (i : ℕ) (rest : List FileTok)
    (h9 : ∀ p ∈ ps, p.radianceSh.length = 9) :
    readProbes i ps.length (probesTokens i ps ++ rest) =
      some (ps.map roundTripProbe, rest) := by
  induction ps generalizing i with
  | nil => rfl
  | cons p ps ih =>
      simp only [probesTokens, List.length_cons, List.map_cons, List.append_assoc]
      rw [readProbes, readProbe_probeTokens i p _ (h9 p (by simp))]
      simp [ih (i + 1) (fun q hq => h9 q (by simp [hq]))]

lemma readInts_map (idxs : List ℤ) (rest : List FileTok) :
    readInts idxs.length (idxs.map FileTok.int ++ rest) = some (idxs, rest) := by
  induction idxs with
  | nil => rfl
  | cons v idxs ih =>
      simp only [List.length_cons, List.map_cons, List.cons_append]
      rw [readInts]
      simp [readIntTok, ih]

lemma strToBakingMode_bakingModeToStr (mode : LightBakingMode) :
    StrToBakingMode (BakingModeToStr mode) = some mode := by
  cases mode <;> rfl

/-- The emitter's fixed 9-decimal rounding changes a coefficient channel by at
most `10⁻⁶` (indeed at most `5·10⁻¹⁰`). -/
lemma dec9val_round9_close (q : ℚ) : |dec9val (round9 q) - q| ≤ 1 / 1000000 := by
  unfold dec9val round9
  have h := abs_sub_round (q * 1000000000)
  have key : ((round (q * 1000000000) : ℤ) : ℚ) / 1000000000 - q =
      (((round (q * 1000000000) : ℤ) : ℚ) - q * 1000000000) / 1000000000 := by ring
  rw [key, abs_div, abs_of_pos (show (0:ℚ) < 1000000000 by norm_num)]
  rw [div_le_iff (by norm_num : (0:ℚ) < 1000000000)]
  rw [abs_sub_comm] at h
  have : (1:ℚ) / 1000000 * 1000000000 = 1000 := by norm_num
  linarith

lemma getD_map_of_lt {α β : Type} (f : α → β) (l : List α) (i : ℕ)
    (hi : i < l.length) (d : α) (e : β) : (l.map f).getD i e = f (l.getD i d) := by
  induction l generalizing i with
  | nil => simp at hi
  | cons a l ih =>
      cases i with
      | zero => rfl
      | succ i => exact ih i (by simpa using hi)

lemma getD_mem_of_lt {α : Type} (l : List α) (i : ℕ) (hi : i < l.length) (d : α) :
    l.getD i d ∈ l := by
  induction l generalizing i with
  | nil => simp at hi
  | cons a l ih =>
      cases i with
      | zero => simp [List.getD]
      | succ i => exact List.mem_cons_of_mem a (ih i (by simpa using hi))

/-- C1: serializing a completed `BakingData` and parsing the produced text
yields the same mode, the same cluster index (`CurrentPositionCluster`) or
first-probe-index list (`AllClusters`), the same probe count, and SH
coefficient channels within the emitter's `10⁻⁶` fixed-precision tolerance. -/
theorem baking_results_file_round_trip (bd : BakingData) (mode : LightBakingMode)
    (hmode : bd.bakingMode = some mode)
    (hcluster : mode = LightBakingMode.CurrentPositionCluster →
      ∃ c, bd.bakingCluster = some c)
    (h9 : ∀ p ∈ bd.probes, p.radianceSh.length = 9) :
    ∃ toks parsed,
      SaveBakingResultsToFile bd = some toks ∧
      LoadBakingResultsFromFile toks = some parsed ∧
      parsed.bakingMode = bd.bakingMode ∧
      (mode = LightBakingMode.AllClusters →
        parsed.clusterFirstProbeIndices = bd.clusterFirstProbeIndices) ∧
      (mode = LightBakingMode.CurrentPositionCluster →
        parsed.bakingCluster = bd.bakingCluster) ∧
      parsed.probes.length = bd.probes.length ∧
      (∀ i j, i < bd.probes.length → j < 9 →
        |((parsed.probes.getD i ⟨[]⟩).radianceSh.getD j ⟨0,0,0,0⟩).x -
            ((bd.probes.getD i ⟨[]⟩).radianceSh.getD j ⟨0,0,0,0⟩).x| ≤ 1/1000000 ∧
        |((parsed.probes.getD i ⟨[]⟩).radianceSh.getD j ⟨0,0,0,0⟩).y -
            ((bd.probes.getD i ⟨[]⟩).radianceSh.getD j ⟨0,0,0,0⟩).y| ≤ 1/1000000 ∧
        |((parsed.probes.getD i ⟨[]⟩).radianceSh.getD j ⟨0,0,0,0⟩).z -
            ((bd.probes.getD i ⟨[]⟩).radianceSh.getD j ⟨0,0,0,0⟩).z| ≤ 1/1000000) := by
  have haccuracy : ∀ parsedProbes, parsedProbes = bd.probes.map roundTripProbe →
      ∀ i j, i < bd.probes.length → j < 9 →
        |((parsedProbes.getD i ⟨[]⟩).radianceSh.getD j ⟨0,0,0,0⟩).x -
            ((bd.probes.getD i ⟨[]⟩).radianceSh.getD j ⟨0,0,0,0⟩).x| ≤ 1/1000000 ∧
        |((parsedProbes.getD i ⟨[]⟩).radianceSh.getD j ⟨0,0,0,0⟩).y -
            ((bd.probes.getD i ⟨[]⟩).radianceSh.getD j ⟨0,0,0,0⟩).y| ≤ 1/1000000 ∧
        |((parsedProbes.getD i ⟨[]⟩).radianceSh.getD j ⟨0,0,0,0⟩).z -
            ((bd.probes.getD i ⟨[]⟩).radianceSh.getD j ⟨0,0,0,0⟩).z| ≤ 1/1000000 := by
    intro parsedProbes hpp i j hi hj
    subst hpp
    rw [getD_map_of_lt roundTripProbe bd.probes i hi ⟨[]⟩]
    have hmem := getD_mem_of_lt bd.probes i hi ⟨[]⟩
    have hlen : (bd.probes.getD i ⟨[]⟩).radianceSh.length = 9 := h9 _ hmem
    have hj' : j < (bd.probes.getD i ⟨[]⟩).radianceSh.length := by omega
    unfold roundTripProbe
    simp only []
    rw [getD_map_of_lt roundTripCoefficient _ j hj' ⟨0,0,0,0⟩]
    unfold roundTripCoefficient
    exact ⟨dec9val_round9_close _, dec9val_round9_close _, dec9val_round9_close _⟩
  cases mode with
  | CurrentPositionCluster =>
      obtain ⟨c, hc⟩ := hcluster rfl
      refine ⟨[FileTok.str "BakingMode", FileTok.str "CurrentPositionCluster",
        FileTok.str "BakingCluster", FileTok.int c,
        FileTok.str "ProbeData", FileTok.int bd.probes.length] ++
          probesTokens 0 bd.probes,
        ⟨some LightBakingMode.CurrentPositionCluster, some c, [],
          bd.probes.map roundTripProbe⟩, ?_, ?_, ?_, ?_, ?_, ?_, ?_⟩
      · simp [SaveBakingResultsToFile, hmode, hc, BakingModeToStr, bakingModeIndex,
          LightBakingMode_Str]
      · show LoadBakingResultsFromFile _ = _
        unfold LoadBakingResultsFromFile
        have hload := readProbes_probesTokens bd.probes 0 [] h9
        rw [List.append_nil] at hload
        simp [expectStrTok, readWordTok, readIntTok, hload,
          show StrToBakingMode "CurrentPositionCluster" =
            some LightBakingMode.CurrentPositionCluster from rfl]
      · simp [hmode]
      · intro h; cases h
      · intro _; simp [hc]
      · simp
      · exact haccuracy _ rfl
  | AllClusters =>
      refine ⟨[FileTok.str "BakingMode", FileTok.str "AllCluster",
        FileTok.str "ClusterFirstProbeIndices",
        FileTok.int bd.clusterFirstProbeIndices.length] ++
          bd.clusterFirstProbeIndices.map FileTok.int ++
        [FileTok.str "ProbeData", FileTok.int bd.probes.length] ++
          probesTokens 0 bd.probes,
        ⟨some LightBakingMode.AllClusters, none, bd.clusterFirstProbeIndices,
          bd.probes.map roundTripProbe⟩, ?_, ?_, ?_, ?_, ?_, ?_, ?_⟩
      · simp [SaveBakingResultsToFile, hmode, BakingModeToStr, bakingModeIndex,
          LightBakingMode_Str]
      · show LoadBakingResultsFromFile _ = _
        unfold LoadBakingResultsFromFile
        have hload := readProbes_probesTokens bd.probes 0 [] h9
        rw [List.append_nil] at hload
        simp [expectStrTok, readWordTok, readIntTok, hload, readInts_map,
          show StrToBakingMode "AllCluster" = some LightBakingMode.AllClusters from rfl]
      · simp [hmode]
      · intro _; rfl
      · intro h; cases h
      · simp
      · exact haccuracy _ rfl

/-- Closed instance of `baking_results_file_round_trip`: a
`CurrentPositionCluster` result for cluster 3 with one probe whose 9 SH
coefficients are `(1/3, 0, 1)`. -/
theorem baking_results_file_round_trip_witness :
    ((⟨some LightBakingMode.CurrentPositionCluster, some 3, [],
        [⟨List.replicate 9 ⟨1/3, 0, 1, 0⟩⟩]⟩ : BakingData).bakingMode =
      some LightBakingMode.CurrentPositionCluster) ∧
    (∃ toks parsed,
      SaveBakingResultsToFile
        ⟨some LightBakingMode.CurrentPositionCluster, some 3, [],
          [⟨List.replicate 9 ⟨1/3, 0, 1, 0⟩⟩]⟩ = some toks ∧
      LoadBakingResultsFromFile toks = some parsed ∧
      parsed.bakingMode =
        (⟨some LightBakingMode.CurrentPositionCluster, some 3, [],
          [⟨List.replicate 9 ⟨1/3, 0, 1, 0⟩⟩]⟩ : BakingData).bakingMode ∧
      (LightBakingMode.CurrentPositionCluster = LightBakingMode.AllClusters →
        parsed.clusterFirstProbeIndices = []) ∧
      (LightBakingMode.CurrentPositionCluster =
          LightBakingMode.CurrentPositionCluster →
        parsed.bakingCluster = some 3) ∧
      parsed.probes.length = 1 ∧
      (∀ i j, i < 1 → j < 9 →
        |((parsed.probes.getD i ⟨[]⟩).radianceSh.getD j ⟨0,0,0,0⟩).x -
            ((([⟨List.replicate 9 (⟨1/3, 0, 1, 0⟩ : Float4)⟩] : List DiffuseProbe).getD i
              ⟨[]⟩).radianceSh.getD j ⟨0,0,0,0⟩).x| ≤ 1/1000000 ∧
        |((parsed.probes.getD i ⟨[]⟩).radianceSh.getD j ⟨0,0,0,0⟩).y -
            ((([⟨List.replicate 9 (⟨1/3, 0, 1, 0⟩ : Float4)⟩] : List DiffuseProbe).getD i
              ⟨[]⟩).radianceSh.getD j ⟨0,0,0,0⟩).y| ≤ 1/1000000 ∧
        |((parsed.probes.getD i ⟨[]⟩).radianceSh.getD j ⟨0,0,0,0⟩).z -
            ((([⟨List.replicate 9 (⟨1/3, 0, 1, 0⟩ : Float4)⟩] : List DiffuseProbe).getD i
              ⟨[]⟩).radianceSh.getD j ⟨0,0,0,0⟩).z| ≤ 1/1000000)) :=
  ⟨rfl, baking_results_file_round_trip
    ⟨some LightBakingMode.CurrentPositionCluster, some 3, [],
      [⟨List.replicate 9 ⟨1/3, 0, 1, 0⟩⟩]⟩
    LightBakingMode.CurrentPositionCluster rfl (fun _ => ⟨3, rfl⟩)
    (by intro p hp; simp at hp; subst hp; rfl)⟩

/-- C2 counterexample: for a concrete `AllClusters` result, the BakingMode
section of the serialized file carries the token `"AllCluster"` — the
`LightBakingMode_Str` table's spelling — and the token `"AllClusters"`
prescribed by the documented format appears nowhere in the file. -/
theorem bakingMode_token_spelling_counterexample :
    SaveBakingResultsToFile ⟨some LightBakingMode.AllClusters, none, [0], []⟩ =
      some [FileTok.str "BakingMode", FileTok.str "AllCluster",
        FileTok.str "ClusterFirstProbeIndices", FileTok.int 1, FileTok.int 0,
        FileTok.str "ProbeData", FileTok.int 0] ∧
    FileTok.str "AllClusters" ∉
      [FileTok.str "BakingMode", FileTok.str "AllCluster",
        FileTok.str "ClusterFirstProbeIndices", FileTok.int 1, FileTok.int 0,
        FileTok.str "ProbeData", FileTok.int 0] := by
  constructor
  · rfl
  · decide

/-- C2 (amended): the BakingMode section of every serialized baking result
carries the token `"AllCluster"` (not the documented `"AllClusters"`) when the
mode is `AllClusters`, and `"CurrentPositionCluster"` as documented when the
mode is `CurrentPositionCluster`. -/
theorem bakingMode_section_token (bd : BakingData) (mode : LightBakingMode)
    (toks : List FileTok)
    (hmode : bd.bakingMode = some mode)
    (hsave : SaveBakingResultsToFile bd = some toks) :
    toks.take 2 = [FileTok.str "BakingMode",
      FileTok.str (match mode with
        | LightBakingMode.AllClusters => "AllCluster"
        | LightBakingMode.CurrentPositionCluster => "CurrentPositionCluster")] := by
  cases mode with
  | AllClusters =>
      have hexp : SaveBakingResultsToFile bd = some
          ([FileTok.str "BakingMode",
            FileTok.str (BakingModeToStr LightBakingMode.AllClusters)] ++
            (FileTok.str "ClusterFirstProbeIndices" ::
              FileTok.int bd.clusterFirstProbeIndices.length ::
              bd.clusterFirstProbeIndices.map FileTok.int) ++
            [FileTok.str "ProbeData", FileTok.int bd.probes.length] ++
            probesTokens 0 bd.probes) := by
        unfold SaveBakingResultsToFile
        rw [hmode]
        rfl
      rw [hexp] at hsave
      cases hsave
      rfl
  | CurrentPositionCluster =>
      cases hc : bd.bakingCluster with
      | none =>
          have hnone : SaveBakingResultsToFile bd = none := by
            unfold SaveBakingResultsToFile
            rw [hmode, hc]
            rfl
          rw [hnone] at hsave
          cases hsave
      | some c =>
          have hexp : SaveBakingResultsToFile bd = some
              ([FileTok.str "BakingMode",
                FileTok.str (BakingModeToStr LightBakingMode.CurrentPositionCluster)] ++
                [FileTok.str "BakingCluster", FileTok.int c] ++
                [FileTok.str "ProbeData", FileTok.int bd.probes.length] ++
                probesTokens 0 bd.probes) := by
            unfold SaveBakingResultsToFile
            rw [hmode, hc]
            rfl
          rw [hexp] at hsave
          cases hsave
          rfl

/-- Closed instance of `bakingMode_section_token` at the `AllClusters`
counterexample input. -/
theorem bakingMode_section_token_witness :
    ((⟨some LightBakingMode.AllClusters, none, [0], []⟩ : BakingData).bakingMode =
      some LightBakingMode.AllClusters) ∧
    ([FileTok.str "BakingMode", FileTok.str "AllCluster",
      FileTok.str "ClusterFirstProbeIndices", FileTok.int 1, FileTok.int 0,
      FileTok.str "ProbeData", FileTok.int 0].take 2 = [FileTok.str "BakingMode",
        FileTok.str (match LightBakingMode.AllClusters with
          | LightBakingMode.AllClusters => "AllCluster"
          | LightBakingMode.CurrentPositionCluster => "CurrentPositionCluster")]) :=
  ⟨rfl, bakingMode_section_token ⟨some LightBakingMode.AllClusters, none, [0], []⟩
    LightBakingMode.AllClusters _ rfl rfl⟩

/-! ### `_AddRootArg` Global PerPass routing (dx_framegraphbuilder.cpp) -/

/-- The scope-invariant identity of a root argument used for deduplication:
name (hash), bind register, and content. -/
structure RootArg where
  name : ℕ
  register : ℕ
  content : List ℕ
deriving DecidableEq

/-- The index of the first list entry structurally equal to `arg`. -/
def findArgIdx (arg : RootArg) : List RootArg → Option ℕ
  | [] => none
  | a :: rest => if a = arg then some 0 else (findArgIdx arg rest).map (· + 1)

/-- Modelled from the spec: `RootArg::FindArg` is declared outside the
analysed sources; per the spec, deduplication "compares by scope-invariant
identity (name + register + content)", so `FindArg` returns the index of the
first stored argument structurally equal to `arg`, or
`Const::INVALID_INDEX = -1`. -/
def FindArg (res : List RootArg) (arg : RootArg) : ℤ :=
  match findArgIdx arg res with
  | some i => (i : ℤ)
  | none => -1

/-- The `Global`/`PerPass` branch of `_AddRootArg`: look the argument up in
`frameGraph.passesGlobalRes`; if absent, push it and record
`passesGlobalRes.size() - 1` in the pass's `passGlobalRootArgsIndices`,
otherwise record the found index. Returns the updated
`(passesGlobalRes, passGlobalRootArgsIndices)`. -/
def AddRootArg_globalPerPass (passesGlobalRes : List RootArg)
    (passGlobalRootArgsIndices : List ℕ) (arg : RootArg) : List RootArg × List ℕ :=
  let resIndex := FindArg passesGlobalRes arg
  if resIndex = -1 then
    (passesGlobalRes ++ [arg], passGlobalRootArgsIndices ++ [passesGlobalRes.length])
  else
    (passesGlobalRes, passGlobalRootArgsIndices ++ [resIndex.toNat])

/-- Lowering a sequence of further Global PerPass arguments (other passes'
resources) into `passesGlobalRes`, discarding their per-pass index lists. -/
def addGlobalPerPassArgs (passesGlobalRes : List RootArg) (args : List RootArg) :
    List RootArg :=
  args.foldl (fun res a => (AddRootArg_globalPerPass res [] a).1) passesGlobalRes

lemma findArgIdx_not_mem (res : List RootArg) (arg : RootArg) (h : arg ∉ res) :
    findArgIdx arg res = none := by
  induction res with
  | nil => rfl
  | cons a res ih =>
      have hne : ¬(a = arg) := fun heq => h (heq ▸ List.mem_cons_self a res)
      have h' : arg ∉ res := fun hm => h (List.mem_cons_of_mem a hm)
      simp [findArgIdx, hne, ih h']

lemma findIdx_not_mem (res : List RootArg) (arg : RootArg) (h : arg ∉ res) :
    FindArg res arg = -1 := by
  unfold FindArg
  rw [findArgIdx_not_mem res arg h]

lemma findIdx_first_occurrence (pre post : List RootArg) (arg : RootArg)
    (h : arg ∉ pre) : FindArg (pre ++ arg :: post) arg = (pre.length : ℤ) := by
  unfold FindArg
  have key : ∀ pre₀ : List RootArg, arg ∉ pre₀ →
      findArgIdx arg (pre₀ ++ arg :: post) = some pre₀.length := by
    intro pre₀ h₀
    induction pre₀ with
    | nil => simp [findArgIdx]
    | cons a pre₀ ih =>
        have hne : ¬(a = arg) := fun heq => h₀ (heq ▸ List.mem_cons_self a pre₀)
        have h' : arg ∉ pre₀ := fun hm => h₀ (List.mem_cons_of_mem a hm)
        simp [findArgIdx, hne, ih h']
  rw [key pre h]

lemma addRootArg_globalPerPass_new (res : List RootArg) (p : List ℕ) (arg : RootArg)
    (h : arg ∉ res) :
    AddRootArg_globalPerPass res p arg = (res ++ [arg], p ++ [res.length]) := by
  unfold AddRootArg_globalPerPass
  rw [findIdx_not_mem res arg h]
  simp

lemma fst_addRootArg_globalPerPass (res : List RootArg) (p : List ℕ) (arg : RootArg) :
    (AddRootArg_globalPerPass res p arg).1 =
      res ++ (if FindArg res arg = -1 then [arg] else []) := by
  unfold AddRootArg_globalPerPass
  by_cases hfind : FindArg res arg = -1
  · rw [if_pos hfind, if_pos hfind]
  · rw [if_neg hfind, if_neg hfind]
    simp

lemma addGlobalPerPassArgs_extends (args : List RootArg) (arg : RootArg)
    (hargs : arg ∉ args) :
    ∀ res, ∃ suffix, addGlobalPerPassArgs res args = res ++ suffix ∧ arg ∉ suffix := by
  induction args with
  | nil => intro res; exact ⟨[], by simp [addGlobalPerPassArgs], by simp⟩
  | cons a args ih =>
      intro res
      have hane : a ≠ arg := fun heq => hargs (heq ▸ List.mem_cons_self a args)
      have hargs' : arg ∉ args := fun hm => hargs (List.mem_cons_of_mem a hm)
      obtain ⟨suffix, hsfx, hnot⟩ := ih hargs' ((AddRootArg_globalPerPass res [] a).1)
      refine ⟨(if FindArg res a = -1 then [a] else []) ++ suffix, ?_, ?_⟩
      · have hstep : addGlobalPerPassArgs res (a :: args) =
            addGlobalPerPassArgs ((AddRootArg_globalPerPass res [] a).1) args := by
          unfold addGlobalPerPassArgs
          rw [List.foldl_cons]
        rw [hstep, hsfx, fst_addRootArg_globalPerPass, List.append_assoc]
      · simp only [List.mem_append]
        rintro (hm | hm)
        · split at hm
          · simp only [List.mem_singleton] at hm
            exact hane hm.symm
          · simp at hm
        · exact hnot hm

lemma getD_append_cons_length (pre post : List RootArg) (arg d : RootArg) :
    (pre ++ arg :: post).getD pre.length d = arg := by
  induction pre with
  | nil => rfl
  | cons a pre ih => simpa using ih

/-- C4: two passes lowering structurally equal Global PerPass resources share
one stored argument. Starting from a `passesGlobalRes` not containing `arg`,
pass 1 lowers `arg`, any number of *other* Global PerPass arguments are
lowered in between, then pass 2 lowers an argument structurally equal to
`arg`: the final `passesGlobalRes` stores `arg` exactly once, and both
passes' `passGlobalRootArgsIndices` received the index of that single
entry. -/
theorem global_perPass_arg_dedup (res0 others : List RootArg) (p1 p2 : List ℕ)
    (arg : RootArg) (h0 : arg ∉ res0) (ho : arg ∉ others) :
    (AddRootArg_globalPerPass
        (addGlobalPerPassArgs (AddRootArg_globalPerPass res0 p1 arg).1 others)
        p2 arg).1.count arg = 1 ∧
    (AddRootArg_globalPerPass res0 p1 arg).2 = p1 ++ [res0.length] ∧
    (AddRootArg_globalPerPass
        (addGlobalPerPassArgs (AddRootArg_globalPerPass res0 p1 arg).1 others)
        p2 arg).2 = p2 ++ [res0.length] ∧
    (AddRootArg_globalPerPass
        (addGlobalPerPassArgs (AddRootArg_globalPerPass res0 p1 arg).1 others)
        p2 arg).1.getD res0.length ⟨0, 0, []⟩ = arg := by
  rw [addRootArg_globalPerPass_new res0 p1 arg h0]
  obtain ⟨suffix, hsfx, hnot⟩ := addGlobalPerPassArgs_extends others arg ho (res0 ++ [arg])
  rw [hsfx]
  have hshape : res0 ++ [arg] ++ suffix = res0 ++ arg :: suffix := by simp
  rw [hshape]
  have hfind : FindArg (res0 ++ arg :: suffix) arg = (res0.length : ℤ) :=
    findIdx_first_occurrence res0 suffix arg h0
  have hfind_ne : FindArg (res0 ++ arg :: suffix) arg ≠ -1 := by
    rw [hfind]; omega
  unfold AddRootArg_globalPerPass
  rw [if_neg hfind_ne]
  refine ⟨?_, rfl, ?_, ?_⟩
  · simp only [List.count_append, List.count_cons]
    rw [List.count_eq_zero_of_not_mem h0, List.count_eq_zero_of_not_mem hnot]
    simp
  · rw [hfind]
    simp
  · exact getD_append_cons_length res0 suffix arg ⟨0, 0, []⟩

/-- Closed instance of `global_perPass_arg_dedup`: an empty global pool, one
unrelated argument lowered between the two equal ones. -/
theorem global_perPass_arg_dedup_witness :
    ((⟨1, 0, [7]⟩ : RootArg) ∉ ([] : List RootArg) ∧
      (⟨1, 0, [7]⟩ : RootArg) ∉ [(⟨2, 3, []⟩ : RootArg)]) ∧
    ((AddRootArg_globalPerPass
        (addGlobalPerPassArgs (AddRootArg_globalPerPass [] [] ⟨1, 0, [7]⟩).1
          [⟨2, 3, []⟩]) [5] ⟨1, 0, [7]⟩).1.count ⟨1, 0, [7]⟩ = 1 ∧
      (AddRootArg_globalPerPass [] [] (⟨1, 0, [7]⟩ : RootArg)).2 = [] ++ [0] ∧
      (AddRootArg_globalPerPass
        (addGlobalPerPassArgs (AddRootArg_globalPerPass [] [] ⟨1, 0, [7]⟩).1
          [⟨2, 3, []⟩]) [5] ⟨1, 0, [7]⟩).2 = [5] ++ [0] ∧
      (AddRootArg_globalPerPass
        (addGlobalPerPassArgs (AddRootArg_globalPerPass [] [] ⟨1, 0, [7]⟩).1
          [⟨2, 3, []⟩]) [5] ⟨1, 0, [7]⟩).1.getD 0 ⟨0, 0, []⟩ = ⟨1, 0, [7]⟩) :=
  ⟨⟨by decide, by decide⟩, by
    have h := global_perPass_arg_dedup [] [⟨2, 3, []⟩] [] [5] ⟨1, 0, [7]⟩
      (by decide) (by decide)
    simpa using h⟩

end Q2VS
